import Mathlib

/-!
Verification of the state/region normalization and aggregation pipeline of
the NPI Finder dashboard (`src/app2.py`). The dataframe-based pipeline is
shallowly embedded: a dataframe is a list of rows, the static dictionaries
are association lists, and each pandas operation used by the pipeline
(equality filters, `map` with `dict.get` fallback, `groupby(...).size()`
with its default key sorting, `sort_values`, `head`, and the usage-time
statistics) is translated into an executable Lean function.
-/

deriving instance DecidableEq for Except

namespace NPIFinder

/-! ## Reference tables (`src/app2.py` lines 61-90) -/

/-- `region_mapping` (lines 61-66): region name → member state codes. -/
def region_mapping : List (String × List String) :=
  [("Northeast", ["ME", "NH", "VT", "MA", "RI", "CT", "NY", "NJ", "PA"]),
   ("Midwest", ["OH", "MI", "IN", "IL", "WI", "MN", "IA", "MO", "ND", "SD", "NE", "KS"]),
   ("South", ["DE", "MD", "DC", "VA", "WV", "NC", "SC", "GA", "FL", "KY", "TN", "AL",
              "MS", "AR", "LA", "OK", "TX"]),
   ("West", ["MT", "ID", "WY", "CO", "NM", "AZ", "UT", "NV", "WA", "OR", "CA", "AK", "HI"])]

/-- `state_code_to_name` (lines 69-87). The key `"_NM"` is transcribed
exactly as it appears in the source (`'_NM': 'New Mexico'`). -/
def state_code_to_name : List (String × String) :=
  [("AL", "Alabama"), ("AK", "Alaska"), ("AZ", "Arizona"), ("AR", "Arkansas"),
   ("CA", "California"), ("CO", "Colorado"), ("CT", "Connecticut"),
   ("DE", "Delaware"), ("FL", "Florida"), ("GA", "Georgia"),
   ("HI", "Hawaii"), ("ID", "Idaho"), ("IL", "Illinois"),
   ("IN", "Indiana"), ("IA", "Iowa"), ("KS", "Kansas"),
   ("KY", "Kentucky"), ("LA", "Louisiana"), ("ME", "Maine"),
   ("MD", "Maryland"), ("MA", "Massachusetts"), ("MI", "Michigan"),
   ("MN", "Minnesota"), ("MS", "Mississippi"), ("MO", "Missouri"),
   ("MT", "Montana"), ("NE", "Nebraska"), ("NV", "Nevada"),
   ("NH", "New Hampshire"), ("NJ", "New Jersey"), ("_NM", "New Mexico"),
   ("NY", "New York"), ("NC", "North Carolina"), ("ND", "North Dakota"),
   ("OH", "Ohio"), ("OK", "Oklahoma"), ("OR", "Oregon"),
   ("PA", "Pennsylvania"), ("RI", "Rhode Island"), ("SC", "South Carolina"),
   ("SD", "South Dakota"), ("TN", "Tennessee"), ("TX", "Texas"),
   ("UT", "Utah"), ("VT", "Vermont"), ("VA", "Virginia"),
   ("WA", "Washington"), ("WV", "West Virginia"), ("WI", "Wisconsin"),
   ("WY", "Wyoming"), ("DC", "District of Columbia")]

/-- `state_name_to_code = {v: k for k, v in state_code_to_name.items()}` (line 90). -/
def state_name_to_code : List (String × String) :=
  state_code_to_name.map (fun p => (p.2, p.1))

/-- Python `dict` lookup: first pair with matching key (keys are distinct
in both tables, so first-match lookup agrees with the Python dict). -/
def dictFind (m : List (String × String)) (k : String) : Option String :=
  (m.find? (fun p => p.1 == k)).map Prod.snd

/-- Python `d.get(k, dflt)`. -/
def dictGet (m : List (String × String)) (k dflt : String) : String :=
  (dictFind m k).getD dflt

/-- `get_region` (lines 198-202 and 221-225): linear scan over
`region_mapping`, first region whose member list contains the code,
`"Unknown"` otherwise. -/
def get_region (state_code : String) : String :=
  match region_mapping.find? (fun p => state_code ∈ p.2) with
  | some p => p.1
  | none => "Unknown"

/-! ## Data model

A dataframe row as loaded from the upload (columns `NPI`, `Speciality`,
`State`, `Region`, `Usage Time (mins)`); usage time is modelled as an
exact rational. -/

structure Row where
  npi : String
  speciality : String
  state : String
  region : String
  usage : ℚ
deriving DecidableEq, Repr

/-- A row of `processed_df`: the original columns plus the columns added by
`standardize_state_codes`. `stateName` is `none` when the `StateName`
column was not created (full-name branch). -/
structure NRow where
  npi : String
  speciality : String
  state : String
  region : String
  usage : ℚ
  stateCode : String
  stateName : Option String
  mappedRegion : String
deriving DecidableEq, Repr

/-- Forget the added columns of an `NRow`. -/
def NRow.base (r : NRow) : Row :=
  ⟨r.npi, r.speciality, r.state, r.region, r.usage⟩

/-- Output of `standardize_state_codes`: the rows, plus which of the
derived columns were added to the dataframe (`hasStateCode` is false
exactly on the `len(data_df) > 0` false branch, where none of
`StateCode`, `StateName`, `MappedRegion` is created). -/
structure Processed where
  hasStateCode : Bool
  hasStateName : Bool
  rows : List NRow
deriving DecidableEq, Repr

/-! ## Filter stage (`src/app2.py` lines 119-123) -/

/-- `df[df['Speciality'] == selected_specialty]` (line 120). -/
def filterSpecialty (df : List Row) (spec : String) : List Row :=
  df.filter (fun r => r.speciality == spec)

/-- `filtered_df[filtered_df['Region'] == selected_region]` (line 123),
applied only when a region is selected ("All Regions" becomes `none`,
lines 115-116). The filter matches the raw `Region` column. -/
def filterRegion (df : List Row) (reg : Option String) : List Row :=
  match reg with
  | none => df
  | some s => df.filter (fun r => r.region == s)

/-- The filtered dataframe: specialty filter, then optional region filter. -/
def filtered_df (df : List Row) (spec : String) (reg : Option String) : List Row :=
  filterRegion (filterSpecialty df spec) reg

/-! ## State normalizer (`standardize_state_codes`, lines 178-206) -/

/-- The distinct values of a list, keeping the first occurrence of each.
`df['State'].value_counts().index.tolist()` (line 182) is the distinct
`State` values (ordered by count); `standardize_state_codes` uses it only
through `isin`, i.e. through membership, so the order chosen here is
immaterial. -/
def distinctFirst {α : Type} [DecidableEq α] : List α → List α
  | [] => []
  | x :: xs => x :: (distinctFirst xs).filter (fun y => ¬ (y = x))

/-- `valid_states = df_to_process['State'].value_counts().index.tolist()`. -/
def valid_states (df : List Row) : List String :=
  distinctFirst (df.map Row.state)

/-- `standardize_state_codes` (lines 178-206). With at least one row:
the first row's `State` length decides the branch (line 186); the
full-name branch adds only `StateCode` (name→code with identity
fallback), the code branch adds `StateCode := State` and `StateName`
(code→name with identity fallback); rows are kept when `StateCode` or
`State` is in `valid_states` (line 195); finally `MappedRegion` is added
via `get_region` (line 204). With zero rows the guarded block is skipped
and no column is added. -/
def standardize_state_codes (df : List Row) : Processed :=
  if df.length > 0 then
    let valid := valid_states df
    let firstLen := ((df.head?.map Row.state).getD "").length
    let withCode : List NRow :=
      if firstLen > 2 then
        df.map (fun r =>
          ⟨r.npi, r.speciality, r.state, r.region, r.usage,
           dictGet state_name_to_code r.state r.state, none, ""⟩)
      else
        df.map (fun r =>
          ⟨r.npi, r.speciality, r.state, r.region, r.usage,
           r.state, some (dictGet state_code_to_name r.state r.state), ""⟩)
    let kept := withCode.filter (fun r => r.stateCode ∈ valid || r.state ∈ valid)
    let withRegion := kept.map (fun r => { r with mappedRegion := get_region r.stateCode })
    ⟨true, !(firstLen > 2), withRegion⟩
  else
    ⟨false, false, []⟩

/-- `processed_df = standardize_state_codes(filtered_df)` (line 209). -/
def processed_df (df : List Row) (spec : String) (reg : Option String) : Processed :=
  standardize_state_codes (filtered_df df spec reg)

/-- The row `standardize_state_codes` produces for an input row in the
full-name branch (`len(State.iloc[0]) > 2`): `StateCode` from name→code
with identity fallback, no `StateName`, `MappedRegion` from the code. -/
def nameFormRow (r : Row) : NRow :=
  ⟨r.npi, r.speciality, r.state, r.region, r.usage,
   dictGet state_name_to_code r.state r.state, none,
   get_region (dictGet state_name_to_code r.state r.state)⟩

/-- The row `standardize_state_codes` produces for an input row in the
code branch: `StateCode := State`, `StateName` from code→name with
identity fallback, `MappedRegion` from the code. -/
def codeFormRow (r : Row) : NRow :=
  ⟨r.npi, r.speciality, r.state, r.region, r.usage,
   r.state, some (dictGet state_code_to_name r.state r.state),
   get_region r.state⟩

/-! ## Exports (`src/app2.py` lines 134-142)

Export content is modelled as a header row followed by data rows, each a
list of cells; this represents the CSV text (`to_csv(index=False)`) and
the single sheet written by `to_excel(index=False)` up to the textual
encoding that pandas applies to both identically. -/

/-- One cell of an exported table. -/
inductive Cell where
  | str (s : String)
  | num (q : ℚ)
deriving DecidableEq, Repr

/-- The header of the uploaded (and filtered) table's five columns. -/
def rawHeader : List Cell :=
  [Cell.str "NPI", Cell.str "Speciality", Cell.str "State",
   Cell.str "Region", Cell.str "Usage Time (mins)"]

/-- The cells of one filtered-table row, in column order. -/
def rawCells (r : Row) : List Cell :=
  [Cell.str r.npi, Cell.str r.speciality, Cell.str r.state,
   Cell.str r.region, Cell.num r.usage]

/-- `csv_data = filtered_df.to_csv(index=False).encode('utf-8')` (line 136):
the serialized content is the header plus the rows of `filtered_df`. -/
def csv_data (df : List Row) (spec : String) (reg : Option String) : List (List Cell) :=
  rawHeader :: (filtered_df df spec reg).map rawCells

/-- `excel_data` (lines 139-142): `filtered_df.to_excel(writer, index=False,
sheet_name='Sheet1')` — the single sheet's content, identical in shape to
the CSV content. -/
def excel_data (df : List Row) (spec : String) (reg : Option String) : List (List Cell) :=
  rawHeader :: (filtered_df df spec reg).map rawCells

/-- Modelled from the spec for the refinement comparison of the export
claim: the serialization of the filtered **and normalized** table,
including the resolved code/name/region columns, which the spec says the
exports equal. (The source exports `filtered_df`, not `processed_df`;
this definition follows the spec's words.) -/
def export_of_processed (p : Processed) : List (List Cell) :=
  let header :=
    rawHeader ++
      (if p.hasStateCode then [Cell.str "StateCode"] else []) ++
      (if p.hasStateName then [Cell.str "StateName"] else []) ++
      (if p.hasStateCode then [Cell.str "MappedRegion"] else [])
  let cells := fun (r : NRow) =>
    rawCells r.base ++
      (if p.hasStateCode then [Cell.str r.stateCode] else []) ++
      (if p.hasStateName then [Cell.str (r.stateName.getD "")] else []) ++
      (if p.hasStateCode then [Cell.str r.mappedRegion] else [])
  header :: p.rows.map cells

/-! ## Aggregation stage -/

/-- Number of occurrences of a value in a list. -/
def occCount {α : Type} [DecidableEq α] (xs : List α) (k : α) : Nat :=
  (xs.filter (fun x => x = k)).length

/-- Strict lexicographic comparison of character lists (the order pandas
uses on string group keys, by code point). -/
def charsLTb : List Char → List Char → Bool
  | [], [] => false
  | [], _ :: _ => true
  | _ :: _, [] => false
  | a :: as, b :: bs => a < b || (a = b && charsLTb as bs)

/-- Strict string comparison by code points. -/
def strLTb (a b : String) : Bool := charsLTb a.data b.data

/-- `a ≤ b` on strings, as the complement of `strLTb b a`. -/
def strLE (a b : String) : Prop := strLTb b a = false

/-- Strict order on strings as a proposition. -/
def strLT (a b : String) : Prop := strLTb a b = true

instance : DecidableRel strLE := fun a b =>
  inferInstanceAs (Decidable (strLTb b a = false))

instance : DecidableRel strLT := fun a b =>
  inferInstanceAs (Decidable (strLTb a b = true))

/-- `groupby(col).size()` with pandas' default `sort=True`: the distinct
keys in ascending order, each with its group size. -/
def groupSizes (xs : List String) : List (String × Nat) :=
  ((distinctFirst xs).insertionSort strLE).map (fun k => (k, occCount xs k))

/-- `state_counts = processed_df.groupby('StateCode').size()` (line 217).
When the `StateCode` column was never added (empty dataframe branch of
`standardize_state_codes`), pandas raises `KeyError: 'StateCode'`, which
the top-level `except` turns into the generic error message; the embedding
returns `Except.error` in that case. -/
def state_counts (p : Processed) : Except String (List (String × Nat)) :=
  if p.hasStateCode then
    Except.ok (groupSizes (p.rows.map NRow.stateCode))
  else
    Except.error "KeyError: StateCode"

/-- Mean of a list of rationals (0 on the empty list, where pandas gives NaN;
the pipeline only takes means of nonempty groups). -/
def meanQ (xs : List ℚ) : ℚ := xs.sum / (xs.length : ℚ)

/-- Round to 1 decimal place, as `.round(1)` (half-away ties do not occur
at any value these theorems evaluate, so the rounding-mode difference with
numpy's half-to-even is immaterial). -/
def round1 (q : ℚ) : ℚ := (round (q * 10) : ℤ) / 10

/-- Round to 2 decimal places, as the `f"{x:.2f}"` display format. -/
def round2 (q : ℚ) : ℚ := (round (q * 100) : ℤ) / 100

/-- `region_counts = processed_df.groupby('MappedRegion').size()` with the
`Percentage` column (lines 305-306): count per resolved region and its
share of the total, rounded to 1 decimal. Like `StateCode`, the
`MappedRegion` column is absent when the dataframe was empty. -/
def region_counts (p : Processed) : Except String (List (String × Nat × ℚ)) :=
  if p.hasStateCode then
    let sizes := groupSizes (p.rows.map NRow.mappedRegion)
    let total := (sizes.map Prod.snd).sum
    Except.ok (sizes.map (fun g => (g.1, g.2, round1 ((g.2 : ℚ) / (total : ℚ) * 100))))
  else
    Except.error "KeyError: MappedRegion"

/-- `usage_by_region = processed_df.groupby('MappedRegion')['Usage Time (mins)']
.mean()` rounded to 1 decimal (lines 349-350). -/
def usage_by_region (p : Processed) : Except String (List (String × ℚ)) :=
  if p.hasStateCode then
    Except.ok
      (((distinctFirst (p.rows.map NRow.mappedRegion)).insertionSort strLE).map
        (fun k =>
          (k, round1 (meanQ ((p.rows.filter (fun r => r.mappedRegion = k)).map NRow.usage)))))
  else
    Except.error "KeyError: MappedRegion"

/-! ## Top-10 states (`src/app2.py` lines 454-456) -/

/-- Ascending order on `groupby(['StateCode', 'State'])` keys: pandas sorts
the group keys lexicographically. -/
def keyLE (a b : String × String) : Prop :=
  strLT a.1 b.1 ∨ (a.1 = b.1 ∧ strLE a.2 b.2)

/-- Strict version of `keyLE`. -/
def keyLT (a b : String × String) : Prop :=
  strLT a.1 b.1 ∨ (a.1 = b.1 ∧ strLT a.2 b.2)

instance : DecidableRel keyLE := fun a b => by
  unfold keyLE; infer_instance

instance : DecidableRel keyLT := fun a b => by
  unfold keyLT; infer_instance

/-- `processed_df.groupby(['StateCode', 'State']).size().reset_index(name='Count')`
(line 454): distinct key pairs in ascending order, each with its size. -/
def groupPairSizes (xs : List (String × String)) : List ((String × String) × Nat) :=
  ((distinctFirst xs).insertionSort keyLE).map (fun k => (k, occCount xs k))

/-- An entry of the `top_states` frame: the group key with its count, plus
the `State Name` column (line 455). -/
def topEntry := ((String × String) × Nat) × String
deriving DecidableEq, Repr

/-- The count of a `top_states` entry. -/
def entryCount (a : topEntry) : Nat := a.1.2

/-- `sort_values('Count', ascending=False)` comparison: by count,
descending. -/
def countGE (a b : topEntry) : Prop := entryCount b ≤ entryCount a

instance : DecidableRel countGE := fun a b => by
  unfold countGE; infer_instance

/-- The `top_states` frame before sorting (lines 454-455): the
`(StateCode, State)` groups with their counts, with the `State Name`
column attached via code→name with identity fallback. -/
def namedGroups (p : Processed) : List topEntry :=
  (groupPairSizes (p.rows.map (fun r => (r.stateCode, r.state)))).map
    (fun g => (g, dictGet state_code_to_name g.1.1 g.1.1))

/-- `top_states` (lines 454-456): group by `(StateCode, State)`, attach
`State Name`, sort by `Count` descending, keep the first 10.
`sort_values` is modelled as a stable descending sort (numpy's default
quicksort reduces to insertion sort at these sizes, and only the relative
order of equal counts depends on stability). -/
def top_states (p : Processed) : List topEntry :=
  ((namedGroups p).insertionSort countGE).take 10

/-! ## Usage-time statistics (`stats_df`, lines 468-477) -/

/-- Median as pandas computes it: middle of the sorted values, or the mean
of the two middle values on an even count (0 on the empty list, where
pandas gives NaN). -/
def medianQ (xs : List ℚ) : ℚ :=
  let s := xs.insertionSort (· ≤ ·)
  if xs.length % 2 = 1 then s.getD (xs.length / 2) 0
  else (s.getD (xs.length / 2 - 1) 0 + s.getD (xs.length / 2) 0) / 2

/-- Minimum of a list of rationals (0 on the empty list). -/
def minQ : List ℚ → ℚ
  | [] => 0
  | x :: xs => xs.foldl min x

/-- Maximum of a list of rationals (0 on the empty list). -/
def maxQ : List ℚ → ℚ
  | [] => 0
  | x :: xs => xs.foldl max x

/-- The square of pandas `.std()` with its default `ddof=1`: sum of squared
deviations from the mean divided by `N - 1` (the sample variance). The
standard deviation itself is the square root of this value, which is
irrational in general and is carried symbolically by `StatVal.sqrtOf`. -/
def sampleVar (xs : List ℚ) : ℚ :=
  ((xs.map (fun x => (x - meanQ xs) ^ 2)).sum) / ((xs.length - 1 : ℕ) : ℚ)

/-- A displayed statistic value: either an exactly represented rational
(already carrying the 2-decimal display rounding) or the square root of a
rational (for the standard deviation row, whose 2-decimal formatting of an
irrational value is outside the rational embedding). -/
inductive StatVal where
  | q (x : ℚ)
  | sqrtOf (x : ℚ)
deriving DecidableEq, Repr

/-- `stats_df` (lines 468-477): the five displayed usage-time statistics of
`processed_df['Usage Time (mins)']`, each formatted with `f"{x:.2f}"`. -/
def stats_df (p : Processed) : List (String × StatVal) :=
  let u := p.rows.map NRow.usage
  [("Mean", StatVal.q (round2 (meanQ u))),
   ("Median", StatVal.q (round2 (medianQ u))),
   ("Minimum", StatVal.q (round2 (minQ u))),
   ("Maximum", StatVal.q (round2 (maxQ u))),
   ("Standard Deviation", StatVal.sqrtOf (sampleVar u))]

/-! ## Concrete tables used to evaluate the pipeline -/

/-- A two-specialty table whose Cardiology row is not in the West region:
selecting Cardiology + West filters it to zero rows. -/
def exTwoSpecs : List Row :=
  [⟨"1", "Cardiology", "NY", "Northeast", 45⟩,
   ⟨"2", "Pediatrics", "CA", "West", 32⟩]

/-- Two Cardiology rows whose states appear in the order TX, CA. -/
def exTexasCalif : List Row :=
  [⟨"1", "Cardiology", "TX", "South", 10⟩,
   ⟨"2", "Cardiology", "CA", "West", 20⟩]

/-- A one-row table in full-name form. -/
def exNewYorkName : List Row :=
  [⟨"1", "Cardiology", "New York", "Northeast", 45⟩]

/-- A one-row table in code form. -/
def exNewYorkCode : List Row :=
  [⟨"1", "Cardiology", "NY", "Northeast", 45⟩]

/-- The sample table of `src/app2.py` lines 49-55, with a single specialty
so that the specialty filter keeps all five rows; its usage-time column is
the input `[45.2, 32.7, 58.1, 41.5, 37.8]` of the statistics claim
(written as exact rationals). -/
def exSample : List Row :=
  [⟨"1234567890", "Cardiology", "NY", "Northeast", mkRat 452 10⟩,
   ⟨"2345678901", "Cardiology", "CA", "West", mkRat 327 10⟩,
   ⟨"3456789012", "Cardiology", "TX", "South", mkRat 581 10⟩,
   ⟨"4567890123", "Cardiology", "FL", "South", mkRat 415 10⟩,
   ⟨"5678901234", "Cardiology", "IL", "Midwest", mkRat 378 10⟩]

/-! ## Order lemmas for the embedded string comparison -/

theorem charsLTb_iff : ∀ as bs : List Char, charsLTb as bs = true ↔ List.Lex (· < ·) as bs := by
  intro as
  induction as with
  | nil =>
    intro bs
    cases bs with
    | nil => simp [charsLTb]
    | cons b bs => simp [charsLTb]; exact List.Lex.nil
  | cons a as ih =>
    intro bs
    cases bs with
    | nil =>
      simp only [charsLTb, Bool.false_eq_true, false_iff]
      exact List.Lex.not_nil_right _ _
    | cons b bs =>
      simp only [charsLTb, Bool.or_eq_true, Bool.and_eq_true, decide_eq_true_eq, ih bs]
      constructor
      · rintro (hab | ⟨rfl, hlex⟩)
        · exact List.Lex.rel hab
        · exact List.Lex.cons hlex
      · intro h
        cases h with
        | cons h => exact Or.inr ⟨rfl, h⟩
        | rel h => exact Or.inl h

theorem strLT_iff (a b : String) : strLT a b ↔ List.Lex (· < ·) a.data b.data :=
  charsLTb_iff a.data b.data

theorem strLE_iff_not_strLT (a b : String) : strLE a b ↔ ¬ strLT b a := by
  unfold strLE strLT
  cases h : strLTb b a <;> simp

theorem strLT_asymm {a b : String} (h : strLT a b) : ¬ strLT b a := by
  haveI i : IsAsymm (List Char) (List.Lex (· < ·)) := inferInstance
  rw [strLT_iff] at *
  exact i.asymm _ _ h

theorem strLT_trans {a b c : String} (hab : strLT a b) (hbc : strLT b c) : strLT a c := by
  haveI i : IsTrans (List Char) (List.Lex (· < ·)) := inferInstance
  rw [strLT_iff] at *
  exact i.trans _ _ _ hab hbc

theorem strLT_conn {a b : String} (hab : ¬ strLT a b) (hba : ¬ strLT b a) : a = b := by
  haveI i : IsTrichotomous (List Char) (List.Lex (· < ·)) := inferInstance
  rw [strLT_iff] at hab hba
  rcases i.trichotomous a.data b.data with h | h | h
  · exact absurd h hab
  · exact String.ext h
  · exact absurd h hba

theorem strLE_total (a b : String) : strLE a b ∨ strLE b a := by
  rw [strLE_iff_not_strLT, strLE_iff_not_strLT]
  by_cases h : strLT b a
  · exact Or.inr (strLT_asymm h)
  · exact Or.inl h

theorem strLT_of_strLT_of_strLE {a b c : String} (hab : strLT a b) (hbc : strLE b c) :
    strLT a c := by
  rw [strLE_iff_not_strLT] at hbc
  by_cases hac : strLT a c
  · exact hac
  · by_cases hca : strLT c a
    · exact absurd (strLT_trans hca hab) hbc
    · have he : a = c := strLT_conn hac hca
      exact absurd (he ▸ hab) hbc

theorem strLE_trans {a b c : String} (hab : strLE a b) (hbc : strLE b c) : strLE a c := by
  rw [strLE_iff_not_strLT] at hbc ⊢
  intro hca
  exact hbc (strLT_of_strLT_of_strLE hca hab)

theorem strLT_of_strLE_of_ne {a b : String} (hab : strLE a b) (hne : a ≠ b) : strLT a b := by
  rw [strLE_iff_not_strLT] at hab
  by_cases h : strLT a b
  · exact h
  · exact absurd (strLT_conn h hab) hne

theorem strLT_irrefl (a : String) : ¬ strLT a a := fun h => strLT_asymm h h

/-! Order lemmas for the pair keys of `groupby(['StateCode', 'State'])`. -/

theorem keyLE_total (a b : String × String) : keyLE a b ∨ keyLE b a := by
  unfold keyLE
  by_cases h1 : strLT a.1 b.1
  · exact Or.inl (Or.inl h1)
  · by_cases h2 : strLT b.1 a.1
    · exact Or.inr (Or.inl h2)
    · have he : a.1 = b.1 := strLT_conn h1 h2
      rcases strLE_total a.2 b.2 with h | h
      · exact Or.inl (Or.inr ⟨he, h⟩)
      · exact Or.inr (Or.inr ⟨he.symm, h⟩)

theorem keyLE_trans {a b c : String × String} (hab : keyLE a b) (hbc : keyLE b c) :
    keyLE a c := by
  unfold keyLE at *
  rcases hab with h1 | ⟨he1, hle1⟩
  · rcases hbc with h2 | ⟨he2, _⟩
    · exact Or.inl (strLT_trans h1 h2)
    · exact Or.inl (he2 ▸ h1)
  · rcases hbc with h2 | ⟨he2, hle2⟩
    · exact Or.inl (he1 ▸ h2)
    · exact Or.inr ⟨he1.trans he2, strLE_trans hle1 hle2⟩

theorem keyLT_of_keyLE_of_ne {a b : String × String} (hab : keyLE a b) (hne : a ≠ b) :
    keyLT a b := by
  unfold keyLE at hab
  unfold keyLT
  rcases hab with h | ⟨he, hle⟩
  · exact Or.inl h
  · refine Or.inr ⟨he, strLT_of_strLE_of_ne hle ?_⟩
    intro h2
    exact hne (Prod.ext he h2)

/-! ## Lemmas about `distinctFirst` -/

theorem mem_distinctFirst_of_mem {α : Type} [DecidableEq α] {a : α} :
    ∀ {xs : List α}, a ∈ xs → a ∈ distinctFirst xs := by
  intro xs
  induction xs with
  | nil => intro h; cases h
  | cons x t ih =>
    intro h
    rw [distinctFirst]
    rcases List.mem_cons.mp h with rfl | ht
    · exact List.mem_cons_self _ _
    · by_cases hax : a = x
      · exact hax ▸ List.mem_cons_self _ _
      · exact List.mem_cons_of_mem _ (List.mem_filter.mpr ⟨ih ht, by simpa using hax⟩)

theorem mem_of_mem_distinctFirst {α : Type} [DecidableEq α] {a : α} :
    ∀ {xs : List α}, a ∈ distinctFirst xs → a ∈ xs := by
  intro xs
  induction xs with
  | nil => intro h; cases h
  | cons x t ih =>
    intro h
    rw [distinctFirst] at h
    rcases List.mem_cons.mp h with rfl | ht
    · exact List.mem_cons_self _ _
    · exact List.mem_cons_of_mem _ (ih (List.mem_filter.mp ht).1)

theorem nodup_distinctFirst {α : Type} [DecidableEq α] :
    ∀ xs : List α, (distinctFirst xs).Nodup := by
  intro xs
  induction xs with
  | nil => exact List.nodup_nil
  | cons x t ih =>
    rw [distinctFirst]
    refine List.Nodup.cons ?_ (List.Nodup.filter _ ih)
    intro hmem
    have := (List.mem_filter.mp hmem).2
    simp at this

/-! ## A pairwise lemma for `insertionSort` with explicit order hypotheses -/

theorem pairwise_orderedInsert_of {α : Type} (r : α → α → Prop) [DecidableRel r]
    (total : ∀ a b, r a b ∨ r b a) (htrans : ∀ a b c, r a b → r b c → r a c)
    (x : α) : ∀ l : List α, l.Pairwise r → (l.orderedInsert r x).Pairwise r := by
  intro l
  induction l with
  | nil => intro _; simp [List.orderedInsert]
  | cons b t ih =>
    intro hl
    rw [List.orderedInsert]
    rcases List.pairwise_cons.mp hl with ⟨hbt, htp⟩
    by_cases hxb : r x b
    · rw [if_pos hxb]
      refine List.pairwise_cons.mpr ⟨?_, hl⟩
      intro y hy
      rcases List.mem_cons.mp hy with rfl | hyt
      · exact hxb
      · exact htrans x b y hxb (hbt y hyt)
    · rw [if_neg hxb]
      refine List.pairwise_cons.mpr ⟨?_, ih htp⟩
      intro y hy
      rcases (List.mem_orderedInsert r).mp hy with heq | hyt
      · rw [heq]
        exact (total x b).resolve_left hxb
      · exact hbt y hyt

theorem pairwise_insertionSort_of {α : Type} (r : α → α → Prop) [DecidableRel r]
    (total : ∀ a b, r a b ∨ r b a) (htrans : ∀ a b c, r a b → r b c → r a c) :
    ∀ l : List α, (l.insertionSort r).Pairwise r := by
  intro l
  induction l with
  | nil => simp [List.insertionSort]
  | cons x t ih =>
    rw [List.insertionSort]
    exact pairwise_orderedInsert_of r total htrans x _ ih

/-! ## Characterization of `standardize_state_codes` -/

theorem filter_valid_keep (df : List Row) (g : Row → NRow) (hg : ∀ r, (g r).state = r.state) :
    ((df.map g).filter
      (fun r => r.stateCode ∈ valid_states df || r.state ∈ valid_states df)) = df.map g := by
  apply List.filter_eq_self.mpr
  intro r hr
  rcases List.mem_map.mp hr with ⟨r0, hr0, rfl⟩
  have hmem : r0.state ∈ valid_states df :=
    mem_distinctFirst_of_mem (List.mem_map_of_mem Row.state hr0)
  simp [hg r0, hmem]

theorem standardize_rows_eq (df : List Row) :
    (standardize_state_codes df).rows =
      if ((df.head?.map Row.state).getD "").length > 2 then df.map nameFormRow
      else df.map codeFormRow := by
  cases df with
  | nil => simp [standardize_state_codes]
  | cons r0 t =>
    simp only [standardize_state_codes, List.length_cons]
    rw [if_pos (Nat.succ_pos t.length)]
    by_cases hb : (((((r0 :: t) : List Row).head?.map Row.state).getD "").length > 2)
    · rw [if_pos hb, if_pos (by simpa using hb)]
      rw [filter_valid_keep _ _ (fun r => rfl), List.map_map]
      rfl
    · rw [if_neg hb, if_neg (by simpa using hb)]
      rw [filter_valid_keep _ _ (fun r => rfl), List.map_map]
      rfl

theorem standardize_base_eq (df : List Row) :
    ((standardize_state_codes df).rows).map NRow.base = df := by
  have hmap : ∀ (g : Row → NRow), (∀ r, (g r).base = r) →
      ∀ l : List Row, (l.map g).map NRow.base = l := by
    intro g hg l
    induction l with
    | nil => rfl
    | cons x t ih => simp [hg x, ih]
  rw [standardize_rows_eq]
  split
  · exact hmap nameFormRow (fun r => rfl) df
  · exact hmap codeFormRow (fun r => rfl) df

theorem mappedRegion_eq_of_mem {df : List Row} {r : NRow}
    (h : r ∈ (standardize_state_codes df).rows) :
    r.mappedRegion = get_region r.stateCode := by
  rw [standardize_rows_eq] at h
  split at h <;> (rcases List.mem_map.mp h with ⟨r0, _, rfl⟩; rfl)

theorem get_region_mem {c reg : String} (h : get_region c = reg) (hne : reg ≠ "Unknown") :
    ∃ p ∈ region_mapping, p.1 = reg ∧ c ∈ p.2 := by
  unfold get_region at h
  cases hf : region_mapping.find? (fun p => c ∈ p.2) with
  | none =>
    rw [hf] at h
    simp only [] at h
    exact absurd h.symm hne
  | some p =>
    rw [hf] at h
    exact ⟨p, List.mem_of_find?_eq_some hf, h, by simpa using List.find?_some hf⟩

/-! ## Stability of the modelled `sort_values` for `top_states` -/

theorem pairwise_orderedInsert_stable (k : topEntry → topEntry → Prop) (x : topEntry) :
    ∀ l : List topEntry,
      l.Pairwise (fun a b => countGE a b ∧ (entryCount a = entryCount b → k a b)) →
      (∀ y ∈ l, entryCount x = entryCount y → k x y) →
      (l.orderedInsert countGE x).Pairwise
        (fun a b => countGE a b ∧ (entryCount a = entryCount b → k a b)) := by
  intro l
  induction l with
  | nil =>
    intro _ _
    simp [List.orderedInsert]
  | cons b t ih =>
    intro hl hx
    rcases List.pairwise_cons.mp hl with ⟨hbt, htp⟩
    rw [List.orderedInsert]
    by_cases hxb : countGE x b
    · rw [if_pos hxb]
      refine List.pairwise_cons.mpr ⟨?_, hl⟩
      intro y hy
      rcases List.mem_cons.mp hy with heq | hyt
      · rw [heq]
        exact ⟨hxb, fun he => hx b (List.mem_cons_self _ _) (heq ▸ he)⟩
      · refine ⟨Nat.le_trans (hbt y hyt).1 hxb, fun he => hx y (List.mem_cons_of_mem _ hyt) he⟩
    · rw [if_neg hxb]
      refine List.pairwise_cons.mpr
        ⟨?_, ih htp (fun y hy he => hx y (List.mem_cons_of_mem _ hy) he)⟩
      intro y hy
      rcases (List.mem_orderedInsert countGE).mp hy with heq | hyt
      · rw [heq]
        have hlt : entryCount x < entryCount b := Nat.lt_of_not_le hxb
        exact ⟨Nat.le_of_lt hlt, fun he => absurd he.symm (Nat.ne_of_lt hlt)⟩
      · exact hbt y hyt

theorem pairwise_insertionSort_stable (k : topEntry → topEntry → Prop) :
    ∀ l : List topEntry,
      l.Pairwise (fun a b => entryCount a = entryCount b → k a b) →
      (l.insertionSort countGE).Pairwise
        (fun a b => countGE a b ∧ (entryCount a = entryCount b → k a b)) := by
  intro l
  induction l with
  | nil =>
    intro _
    simp [List.insertionSort]
  | cons x t ih =>
    intro hl
    rcases List.pairwise_cons.mp hl with ⟨hxt, htp⟩
    rw [List.insertionSort]
    exact pairwise_orderedInsert_stable k x _ (ih htp)
      (fun y hy he => hxt y ((List.mem_insertionSort countGE).mp hy) he)

theorem namedGroups_pairwise_keyLT (p : Processed) :
    (namedGroups p).Pairwise (fun a b => keyLT a.1.1 b.1.1) := by
  unfold namedGroups groupPairSizes
  rw [List.pairwise_map, List.pairwise_map]
  have hsorted :
      ((distinctFirst (p.rows.map (fun r => (r.stateCode, r.state)))).insertionSort
        keyLE).Pairwise keyLE :=
    pairwise_insertionSort_of keyLE keyLE_total (fun a b c => keyLE_trans) _
  have hnodup :
      ((distinctFirst (p.rows.map (fun r => (r.stateCode, r.state)))).insertionSort
        keyLE).Nodup :=
    ((List.perm_insertionSort keyLE _).nodup_iff).mpr (nodup_distinctFirst _)
  exact (hsorted.and hnodup).imp (fun h => keyLT_of_keyLE_of_ne h.1 h.2)

/-! ## Evaluation helpers for `round` -/

theorem round_eq_intCast {q : ℚ} {z : ℤ} (h : q = (z : ℚ)) : round q = z := by
  rw [h, round_intCast]

theorem round1_eval {q r : ℚ} {z : ℤ} (h : q * 10 = (z : ℚ)) (h2 : (z : ℚ) / 10 = r) :
    round1 q = r := by
  rw [round1, round_eq_intCast h, h2]

theorem round2_eval {q r : ℚ} {z : ℤ} (h : q * 100 = (z : ℚ)) (h2 : (z : ℚ) / 100 = r) :
    round2 q = r := by
  rw [round2, round_eq_intCast h, h2]

/-! ## Claims -/

/-- Claim C3: the spec says every state code with an entry in the code→name
mapping belongs to exactly one of the 4 region member sets, and the sets
are pairwise disjoint. The code violates the first half: the code→name
table's key `'_NM'` (an apparent typo for `'NM'`, which the app's own
schema documentation restricts to 2-letter codes) belongs to zero region
member sets. This theorem evaluates the tables: `"_NM"` is a key of the
mapping but lies in no region's member list (so `get_region` sends it to
`"Unknown"`), `"NM"` itself is not a key but lies exactly in `West`, every
key other than `"_NM"` lies in exactly one region member list, and every
code occurring in any member list occurs in exactly one (the four member
lists are pairwise disjoint). -/
theorem C3_region_partition :
    ("_NM" ∈ state_code_to_name.map Prod.fst) ∧
    ((region_mapping.filter (fun p => "_NM" ∈ p.2)).map Prod.fst = []) ∧
    get_region "_NM" = "Unknown" ∧
    ((state_code_to_name.map Prod.fst).contains "NM" = false) ∧
    ((region_mapping.filter (fun p => "NM" ∈ p.2)).map Prod.fst = ["West"]) ∧
    (((state_code_to_name.map Prod.fst).filter (fun c => !(c = "_NM"))).all
      (fun c => (region_mapping.filter (fun p => c ∈ p.2)).length = 1) = true) ∧
    (((region_mapping.map Prod.snd).flatten.map
        (fun c => (region_mapping.filter (fun p => c ∈ p.2)).length)).all
      (fun n => n = 1) = true) := by
  decide

/-- Claim C6: for every key of the code→name table, looking the code up in
code→name and the resulting name up in name→code returns the original
code (the name→code table is the reversed code→name table and the 51
display names are pairwise distinct). -/
theorem C6_roundtrip (c : String) (h : c ∈ state_code_to_name.map Prod.fst) :
    (dictFind state_code_to_name c).bind (fun n => dictFind state_name_to_code n) = some c :=
  (by decide :
    ∀ x ∈ state_code_to_name.map Prod.fst,
      (dictFind state_code_to_name x).bind (fun n => dictFind state_name_to_code n) = some x)
    c h

/-- Witness for C6 at the concrete code `"AL"`. -/
theorem C6_roundtrip_witness :
    (dictFind state_code_to_name "AL").bind (fun n => dictFind state_name_to_code n) =
      some "AL" :=
  C6_roundtrip "AL" (by decide)

/-- Claim C7: the normalizer never removes a row: the retained rows project
back onto the full input (in order), because every row's raw `State` value
is a member of the allow-list, which is computed as the distinct raw
`State` values of the same input. -/
theorem C7_no_rows_removed (df : List Row) :
    ((standardize_state_codes df).rows).map NRow.base = df ∧
    ∀ r ∈ df, r.state ∈ valid_states df :=
  ⟨standardize_base_eq df,
   fun _ hr => mem_distinctFirst_of_mem (List.mem_map_of_mem Row.state hr)⟩

/-- Witness for C7 on a concrete two-row table. -/
theorem C7_no_rows_removed_witness :
    ((standardize_state_codes exTwoSpecs).rows).map NRow.base = exTwoSpecs ∧
    ("NY" : String) ∈ valid_states exTwoSpecs :=
  ⟨(C7_no_rows_removed exTwoSpecs).1,
   (C7_no_rows_removed exTwoSpecs).2 ⟨"1", "Cardiology", "NY", "Northeast", 45⟩
     (by decide)⟩

/-- Claim C9: every normalizer output row whose resolved region is not
`"Unknown"` has its resolved state code in that region's member set of the
region table (because `get_region` only returns a region name when the
linear scan finds the code in that region's list). -/
theorem C9_region_consistent (df : List Row) (r : NRow)
    (h : r ∈ (standardize_state_codes df).rows) (hne : r.mappedRegion ≠ "Unknown") :
    ∃ p ∈ region_mapping, p.1 = r.mappedRegion ∧ r.stateCode ∈ p.2 :=
  get_region_mem (mappedRegion_eq_of_mem h).symm hne

/-- Witness for C9 at the concrete normalized row for state `"NY"`. -/
theorem C9_region_consistent_witness :
    ∃ p ∈ region_mapping,
      p.1 = (⟨"1", "Cardiology", "NY", "Northeast", 45, "NY", some "New York",
              "Northeast"⟩ : NRow).mappedRegion ∧
      (⟨"1", "Cardiology", "NY", "Northeast", 45, "NY", some "New York",
        "Northeast"⟩ : NRow).stateCode ∈ p.2 :=
  C9_region_consistent exNewYorkCode _ (by decide) (by decide)

/-- Counterexample to claim C1: selecting specialty Cardiology and region
West on `exTwoSpecs` filters to zero rows, and the state-count aggregation
then raises a missing-column error (`KeyError: 'StateCode'` in the source,
caught by the top-level handler and surfaced as the generic processing
error) instead of producing a zero-row output. -/
theorem C1_counterexample :
    filtered_df exTwoSpecs "Cardiology" (some "West") = [] ∧
    state_counts (processed_df exTwoSpecs "Cardiology" (some "West")) =
      Except.error "KeyError: StateCode" := by
  decide

/-- Claim C1 as amended: whenever the specialty/region filter yields zero
rows, `standardize_state_codes` skips its guarded block and adds none of
the derived columns, so the state-count and region-count aggregations
raise a missing-column error rather than producing zero-row outputs. -/
theorem C1_empty_filter_errors (df : List Row) (spec : String) (reg : Option String)
    (h : filtered_df df spec reg = []) :
    processed_df df spec reg = ⟨false, false, []⟩ ∧
    state_counts (processed_df df spec reg) = Except.error "KeyError: StateCode" ∧
    region_counts (processed_df df spec reg) = Except.error "KeyError: MappedRegion" := by
  have hp : processed_df df spec reg = ⟨false, false, []⟩ := by
    rw [processed_df, h]
    rfl
  rw [hp]
  exact ⟨rfl, rfl, rfl⟩

/-- Witness for C1 (amended) at the concrete empty-filter selection. -/
theorem C1_empty_filter_errors_witness :
    filtered_df exTwoSpecs "Cardiology" (some "West") = [] ∧
    (processed_df exTwoSpecs "Cardiology" (some "West") = ⟨false, false, []⟩ ∧
     state_counts (processed_df exTwoSpecs "Cardiology" (some "West")) =
       Except.error "KeyError: StateCode" ∧
     region_counts (processed_df exTwoSpecs "Cardiology" (some "West")) =
       Except.error "KeyError: MappedRegion") :=
  ⟨by decide, C1_empty_filter_errors exTwoSpecs "Cardiology" (some "West") (by decide)⟩

/-- Counterexample to claim C4: on a non-empty full-name-form input the
normalizer adds no resolved display-name column (`StateName` is created
only in the code branch), so the output is not augmented with all three
resolved columns in both input forms. -/
theorem C4_counterexample :
    (standardize_state_codes exNewYorkName).hasStateName = false ∧
    (standardize_state_codes exNewYorkName).rows =
      [⟨"1", "Cardiology", "New York", "Northeast", 45, "NY", none, "Northeast"⟩] := by
  decide

/-- Claim C4 as amended: for every non-empty input the normalizer keeps
all input rows and adds the resolved state-code and resolved region
columns in both input forms, but the resolved display-name column is
added only in the code form (first value's length ≤ 2). -/
theorem C4_normalizer_columns (df : List Row) (h : df ≠ []) :
    (standardize_state_codes df).hasStateCode = true ∧
    ((standardize_state_codes df).rows).map NRow.base = df ∧
    ((standardize_state_codes df).hasStateName =
      !(decide ((((df.head?.map Row.state).getD "").length) > 2))) ∧
    ((((df.head?.map Row.state).getD "").length > 2) →
      (standardize_state_codes df).rows = df.map nameFormRow) ∧
    (¬ ((((df.head?.map Row.state).getD "").length) > 2) →
      (standardize_state_codes df).rows = df.map codeFormRow) := by
  have hl : df.length > 0 := List.length_pos.mpr h
  refine ⟨?_, standardize_base_eq df, ?_, ?_, ?_⟩
  · simp only [standardize_state_codes]
    rw [if_pos hl]
  · simp only [standardize_state_codes]
    rw [if_pos hl]
  · intro hgt
    rw [standardize_rows_eq, if_pos hgt]
  · intro hle
    rw [standardize_rows_eq, if_neg hle]

/-- Witness for C4 (amended) at the concrete code-form table. -/
theorem C4_normalizer_columns_witness :
    (standardize_state_codes exNewYorkCode).hasStateCode = true ∧
    (standardize_state_codes exNewYorkCode).rows = exNewYorkCode.map codeFormRow :=
  ⟨(C4_normalizer_columns exNewYorkCode (by decide)).1,
   (C4_normalizer_columns exNewYorkCode (by decide)).2.2.2.2 (by decide)⟩

/-- Counterexample to claim C5: the CSV/Excel export content is not the
filtered **and normalized** table: at a concrete upload the export lacks
the resolved code/name/region columns that the normalized table carries. -/
theorem C5_counterexample :
    csv_data exNewYorkCode "Cardiology" none ≠
      export_of_processed (processed_df exNewYorkCode "Cardiology" none) := by
  decide

/-- Claim C5 as amended: the CSV export and the single-sheet spreadsheet
export have identical content, equal to the table after the Filter Stage
only — the header plus the filtered rows with the original five columns,
without the resolved code/name/region columns. -/
theorem C5_export_matches_filter_stage (df : List Row) (spec : String) (reg : Option String) :
    csv_data df spec reg = excel_data df spec reg ∧
    (csv_data df spec reg).head? = some rawHeader ∧
    (csv_data df spec reg).tail = (filtered_df df spec reg).map rawCells ∧
    ∀ c ∈ csv_data df spec reg, c.length = 5 := by
  refine ⟨rfl, rfl, rfl, ?_⟩
  intro c hc
  simp only [csv_data] at hc
  rcases List.mem_cons.mp hc with hceq | hct
  · rw [hceq]
    rfl
  · rcases List.mem_map.mp hct with ⟨r, _, rfl⟩
    rfl

/-- Witness for C5 (amended): a concrete exported data row has the five
original columns. -/
theorem C5_export_matches_filter_stage_witness :
    (rawCells ⟨"1", "Cardiology", "NY", "Northeast", 45⟩).length = 5 :=
  (C5_export_matches_filter_stage exNewYorkCode "Cardiology" none).2.2.2 _ (by decide)

/-- Counterexample to claim C2: on a table whose states appear in input
order TX, CA with one provider each (a tie), the top-10 listing shows CA
before TX — the `groupby` step sorts the group keys alphabetically, so
ties follow ascending key order, not first-seen input order. -/
theorem C2_counterexample :
    (top_states (processed_df exTexasCalif "Cardiology" none)).map (fun e => e.1.1.1) =
      ["CA", "TX"] ∧
    (processed_df exTexasCalif "Cardiology" none).rows.map NRow.stateCode = ["TX", "CA"] ∧
    (["CA", "TX"] : List String) ≠ ["TX", "CA"] := by
  decide

/-- Claim C2 as amended: the top-10 listing consists of (at most) 10 of
the state groups, ordered by provider count descending, and groups with
equal counts appear in ascending lexicographic order of the
`(StateCode, State)` group key (the `groupby` key order), not first-seen
input order; every group left out has a count no larger than every listed
group, and the listing has `min 10 (number of groups)` entries. -/
theorem C2_top_states_order (p : Processed) :
    (top_states p).Pairwise
      (fun a b => entryCount b ≤ entryCount a ∧
        (entryCount a = entryCount b → keyLT a.1.1 b.1.1)) ∧
    (∀ a ∈ top_states p, a ∈ namedGroups p) ∧
    (∀ g ∈ namedGroups p, g ∉ top_states p → ∀ a ∈ top_states p,
      entryCount g ≤ entryCount a) ∧
    (top_states p).length = min 10 (namedGroups p).length := by
  have hfull : ((namedGroups p).insertionSort countGE).Pairwise
      (fun a b => countGE a b ∧ (entryCount a = entryCount b → keyLT a.1.1 b.1.1)) :=
    pairwise_insertionSort_stable _ _
      ((namedGroups_pairwise_keyLT p).imp
        (fun h => (fun _ => h : entryCount _ = entryCount _ → keyLT _ _)))
  refine ⟨?_, ?_, ?_, ?_⟩
  · exact List.Pairwise.sublist (List.take_sublist 10 _) hfull
  · intro a ha
    rw [top_states] at ha
    exact (List.mem_insertionSort countGE).mp (List.mem_of_mem_take ha)
  · intro g hg hgo a ha
    rw [top_states] at hgo ha
    have hsorted := hfull
    rw [← List.take_append_drop 10 ((namedGroups p).insertionSort countGE)] at hsorted
    have hmem : g ∈ (namedGroups p).insertionSort countGE :=
      (List.mem_insertionSort countGE).mpr hg
    rw [← List.take_append_drop 10 ((namedGroups p).insertionSort countGE)] at hmem
    rcases List.mem_append.mp hmem with h1 | h2
    · exact absurd h1 hgo
    · exact ((List.pairwise_append.mp hsorted).2.2 a ha g h2).1
  · rw [top_states, List.length_take, List.length_insertionSort]

/-- Witness for C2 (amended): a concrete listed entry is one of the state
groups. -/
theorem C2_top_states_order_witness :
    ((("CA", "CA"), 1), "California") ∈
      namedGroups (processed_df exTexasCalif "Cardiology" none) :=
  (C2_top_states_order (processed_df exTexasCalif "Cardiology" none)).2.1 _ (by decide)

theorem mem_groupSizes_key {xs : List String} {g : String × Nat} (h : g ∈ groupSizes xs) :
    g.1 ∈ xs := by
  unfold groupSizes at h
  rcases List.mem_map.mp h with ⟨k, hk, rfl⟩
  exact mem_of_mem_distinctFirst ((List.mem_insertionSort strLE).mp hk)

/-- Claim C8: the region filter restricts by exact equality on the raw
as-supplied `Region` column (and the specialty filter on `Speciality`),
while the regional pie (`region_counts`) and the regional mean-usage chart
(`usage_by_region`) group by the resolved `MappedRegion` column, which is
derived from the state code via `get_region`: every group key of either
chart is the `get_region`-resolved region of some normalized row. -/
theorem C8_filter_raw_charts_resolved (df : List Row) (spec reg : String)
    (sel : Option String) (r : Row) (hr : r ∈ filtered_df df spec (some reg))
    (ks : List (String × Nat × ℚ))
    (hks : region_counts (processed_df df spec sel) = Except.ok ks)
    (g : String × Nat × ℚ) (hg : g ∈ ks)
    (us : List (String × ℚ))
    (hus : usage_by_region (processed_df df spec sel) = Except.ok us)
    (u : String × ℚ) (hu : u ∈ us) :
    r.region = reg ∧ r.speciality = spec ∧
    (∃ row ∈ (processed_df df spec sel).rows,
      g.1 = row.mappedRegion ∧ g.1 = get_region row.stateCode) ∧
    (∃ row ∈ (processed_df df spec sel).rows,
      u.1 = row.mappedRegion ∧ u.1 = get_region row.stateCode) := by
  have hkey : ∀ k : String, k ∈ (processed_df df spec sel).rows.map NRow.mappedRegion →
      ∃ row ∈ (processed_df df spec sel).rows,
        k = row.mappedRegion ∧ k = get_region row.stateCode := by
    intro k hk
    rcases List.mem_map.mp hk with ⟨row, hrow, rfl⟩
    exact ⟨row, hrow, rfl, mappedRegion_eq_of_mem hrow⟩
  refine ⟨?_, ?_, ?_, ?_⟩
  · simp only [filtered_df, filterRegion] at hr
    simpa using (List.mem_filter.mp hr).2
  · simp only [filtered_df, filterRegion] at hr
    have h1 := (List.mem_filter.mp hr).1
    simp only [filterSpecialty] at h1
    simpa using (List.mem_filter.mp h1).2
  · cases hsc : (processed_df df spec sel).hasStateCode with
    | false =>
      rw [region_counts, if_neg (by rw [hsc]; exact Bool.false_ne_true)] at hks
      cases hks
    | true =>
      rw [region_counts, if_pos hsc] at hks
      have hks' := (Except.ok.inj hks)
      rw [← hks'] at hg
      rcases List.mem_map.mp hg with ⟨s, hs, rfl⟩
      exact hkey s.1 (mem_groupSizes_key hs)
  · cases hsc : (processed_df df spec sel).hasStateCode with
    | false =>
      rw [usage_by_region, if_neg (by rw [hsc]; exact Bool.false_ne_true)] at hus
      cases hus
    | true =>
      rw [usage_by_region, if_pos hsc] at hus
      have hus' := (Except.ok.inj hus)
      rw [← hus'] at hu
      rcases List.mem_map.mp hu with ⟨k, hk, rfl⟩
      exact hkey k (mem_of_mem_distinctFirst ((List.mem_insertionSort strLE).mp hk))

/-- Witness for C8 at a concrete upload, region selection West and the
charts of the processed table for specialty Pediatrics. -/
theorem C8_filter_raw_charts_resolved_witness :
    (⟨"2", "Pediatrics", "CA", "West", 32⟩ : Row).region = "West" ∧
    (⟨"2", "Pediatrics", "CA", "West", 32⟩ : Row).speciality = "Pediatrics" ∧
    (∃ row ∈ (processed_df exTwoSpecs "Pediatrics" none).rows,
      (("West", 1, (100 : ℚ)) : String × Nat × ℚ).1 = row.mappedRegion ∧
      (("West", 1, (100 : ℚ)) : String × Nat × ℚ).1 = get_region row.stateCode) ∧
    (∃ row ∈ (processed_df exTwoSpecs "Pediatrics" none).rows,
      (("West", (32 : ℚ)) : String × ℚ).1 = row.mappedRegion ∧
      (("West", (32 : ℚ)) : String × ℚ).1 = get_region row.stateCode) := by
  have hks : region_counts (processed_df exTwoSpecs "Pediatrics" none) =
      Except.ok [("West", 1, (100 : ℚ))] := by
    have h1 : region_counts (processed_df exTwoSpecs "Pediatrics" none) =
        Except.ok [("West", 1, round1 (((1 : ℕ) : ℚ) / ((1 : ℕ) : ℚ) * 100))] := rfl
    rw [h1, round1_eval (q := ((1 : ℕ) : ℚ) / ((1 : ℕ) : ℚ) * 100) (r := (100 : ℚ))
      (z := 1000) (by norm_num) (by norm_num)]
  have hus : usage_by_region (processed_df exTwoSpecs "Pediatrics" none) =
      Except.ok [("West", (32 : ℚ))] := by
    have h1 : usage_by_region (processed_df exTwoSpecs "Pediatrics" none) =
        Except.ok [("West", round1 (meanQ [32]))] := rfl
    have hm : meanQ [32] = (32 : ℚ) := by norm_num [meanQ]
    rw [h1, hm, round1_eval (q := (32 : ℚ)) (r := (32 : ℚ)) (z := 320)
      (by norm_num) (by norm_num)]
  exact C8_filter_raw_charts_resolved exTwoSpecs "Pediatrics" "West" none
    ⟨"2", "Pediatrics", "CA", "West", 32⟩ (by decide)
    [("West", 1, (100 : ℚ))] hks ("West", 1, (100 : ℚ)) (List.mem_singleton.mpr rfl)
    [("West", (32 : ℚ))] hus ("West", (32 : ℚ)) (List.mem_singleton.mpr rfl)

/-- Claim C10: the usage-time summary statistics are mean, median, min,
max and the standard deviation with pandas' default sample (N-1) divisor,
each displayed rounded to 2 decimals; on the usage column
`[45.2, 32.7, 58.1, 41.5, 37.8]` they display mean 43.06, median 41.5,
min 32.7, max 58.1. The standard-deviation entry is the square root of
the sample variance, here `368.212 / 4 = 92.053` (the N divisor would give
`73.6424`, so this value pins the ddof=1 default); its 2-decimal display
formatting of an irrational value is outside the rational embedding. -/
theorem C10_usage_stats :
    stats_df (processed_df exSample "Cardiology" none) =
      [("Mean", StatVal.q 43.06), ("Median", StatVal.q 41.5),
       ("Minimum", StatVal.q 32.7), ("Maximum", StatVal.q 58.1),
       ("Standard Deviation", StatVal.sqrtOf 92.053)] := by
  have hu : (processed_df exSample "Cardiology" none).rows.map NRow.usage =
      [mkRat 452 10, mkRat 327 10, mkRat 581 10, mkRat 415 10, mkRat 378 10] := rfl
  have hmean : meanQ [mkRat 452 10, mkRat 327 10, mkRat 581 10, mkRat 415 10, mkRat 378 10] =
      (43.06 : ℚ) := by
    norm_num [meanQ]
  have h1 : round2 (meanQ [mkRat 452 10, mkRat 327 10, mkRat 581 10, mkRat 415 10,
      mkRat 378 10]) = (43.06 : ℚ) := by
    rw [hmean, round2_eval (q := (43.06 : ℚ)) (r := (43.06 : ℚ)) (z := 4306)
      (by norm_num) (by norm_num)]
  have hmed : medianQ [mkRat 452 10, mkRat 327 10, mkRat 581 10, mkRat 415 10, mkRat 378 10] =
      mkRat 415 10 := by decide
  have h2 : round2 (medianQ [mkRat 452 10, mkRat 327 10, mkRat 581 10, mkRat 415 10,
      mkRat 378 10]) = (41.5 : ℚ) := by
    rw [hmed, show (mkRat 415 10 : ℚ) = (41.5 : ℚ) by norm_num,
      round2_eval (q := (41.5 : ℚ)) (r := (41.5 : ℚ)) (z := 4150)
        (by norm_num) (by norm_num)]
  have hmin : minQ [mkRat 452 10, mkRat 327 10, mkRat 581 10, mkRat 415 10, mkRat 378 10] =
      mkRat 327 10 := by decide
  have h3 : round2 (minQ [mkRat 452 10, mkRat 327 10, mkRat 581 10, mkRat 415 10,
      mkRat 378 10]) = (32.7 : ℚ) := by
    rw [hmin, show (mkRat 327 10 : ℚ) = (32.7 : ℚ) by norm_num,
      round2_eval (q := (32.7 : ℚ)) (r := (32.7 : ℚ)) (z := 3270)
        (by norm_num) (by norm_num)]
  have hmax : maxQ [mkRat 452 10, mkRat 327 10, mkRat 581 10, mkRat 415 10, mkRat 378 10] =
      mkRat 581 10 := by decide
  have h4 : round2 (maxQ [mkRat 452 10, mkRat 327 10, mkRat 581 10, mkRat 415 10,
      mkRat 378 10]) = (58.1 : ℚ) := by
    rw [hmax, show (mkRat 581 10 : ℚ) = (58.1 : ℚ) by norm_num,
      round2_eval (q := (58.1 : ℚ)) (r := (58.1 : ℚ)) (z := 5810)
        (by norm_num) (by norm_num)]
  have h5 : sampleVar [mkRat 452 10, mkRat 327 10, mkRat 581 10, mkRat 415 10, mkRat 378 10] =
      (92.053 : ℚ) := by
    simp only [sampleVar]
    rw [hmean]
    norm_num
  simp only [stats_df]
  rw [hu, h1, h2, h3, h4, h5]

end NPIFinder
